import Mathlib

/-!
Verification of the movieportal metadata-reconciliation core against its
natural-language specification.

The definitions below are a shallow embedding of the JavaScript source:

* `src/src/services/openlib.js` (three concatenated modules: the Open
  Library book service, the TMDB movie service and the Todoist book
  service) — candidate scoring (`findBestMatch`), the versioned
  localStorage cache (`saveCacheToStorage` / `loadCacheFromStorage`),
  and the batch orchestrator (`batchSearchBooks`).
* `src/unnamed/part_000` (the Todoist movie service) — `parseMovieInfo`
  and `fetchWithRetry`.

Modelling conventions: JavaScript numbers are embedded as `ℚ` (scores,
popularity) or `Int`/`Nat` (years, timestamps, counts); `null`/missing
values as `Option`; thrown exceptions as `Except`; the single-threaded
event loop effects (delays, network calls) as explicit event traces.
Regular-expression matching from the source is implemented by explicit
scanners over character lists with JavaScript leftmost-match semantics.
-/

namespace MoviePortal

/-! ### JavaScript string primitives

`jsCharToLower` models `String.prototype.toLowerCase` for the alphabets
appearing in this repository (ASCII and Cyrillic); the builtin
`Char.toLower` only handles ASCII, while the source lowercases Cyrillic
section names such as "Сериалы". -/

def jsCharToLower (c : Char) : Char :=
  if 'A' ≤ c ∧ c ≤ 'Z' then Char.ofNat (c.toNat + 32)
  else if 'А' ≤ c ∧ c ≤ 'Я' then Char.ofNat (c.toNat + 32)
  else if c = 'Ё' then 'ё'
  else c

def jsToLower (s : String) : String :=
  String.mk (s.data.map jsCharToLower)

/-- Models `String.prototype.trim` (strip leading and trailing whitespace). -/
def jsTrim (s : String) : String :=
  String.mk (((s.data.dropWhile Char.isWhitespace).reverse.dropWhile
    Char.isWhitespace).reverse)

/-- Models `String.prototype.startsWith`. -/
def jsStartsWith (s pre : String) : Bool :=
  pre.data.isPrefixOf s.data

/-- Models `String.prototype.includes` (substring containment). -/
def strIncludes (s sub : String) : Bool :=
  (List.range (s.data.length + 1)).any (fun i => sub.data.isPrefixOf (s.data.drop i))

/-- Value of a run of decimal digits, as produced by `parseInt` on it. -/
def digitsVal (ds : List Char) : Nat :=
  ds.foldl (fun n c => n * 10 + (c.toNat - '0'.toNat)) 0

/-! ### TMDB candidate scoring (`findBestMatch`, openlib.js lines 613-698)

A search result is modelled with the fields `findBestMatch` reads.  The
`release_date`/`first_air_date` strings are represented by the year that
`parseInt(date.substring(0, 4))` extracts from them: `none` covers both a
missing/empty date and an unparseable one (`NaN`, which is falsy like
`null`).  `popularity` and `vote_count` are JavaScript numbers, embedded
as `ℚ`. -/

structure TMDBResult where
  name : String := ""
  title : String := ""
  original_name : String := ""
  original_title : String := ""
  release_year : Option Int := none
  first_air_year : Option Int := none
  popularity : ℚ := 0
  vote_count : ℚ := 0
  deriving DecidableEq

/-- JavaScript truthiness of a nullable numeric year (`null`, `NaN` and
`0` are falsy; `none` covers the first two). -/
def yearTruthy : Option Int → Bool
  | none => false
  | some y => y != 0

/-- `searchTitle.toLowerCase().trim()` as computed in `findBestMatch`. -/
def normalizeQuery (s : String) : String :=
  jsTrim (jsToLower s)

/-- The per-candidate score computed inside `findBestMatch`:
year proximity (exact +150, off-by-one +30, off-by-two +10, farther −50,
candidate year missing while a target year is known −20), title match
(exact +100, prefix +50, substring +25, none −30), plus capped
popularity and vote-count bonuses. -/
def scoreResult (searchTitle : String) (year : Option Int) (isTV : Bool)
    (result : TMDBResult) : ℚ :=
  let normalizedSearch := normalizeQuery searchTitle
  let resultTitle := jsToLower (if isTV then result.name else result.title)
  let originalTitle := jsToLower (if isTV then result.original_name else result.original_title)
  let resultYear := if isTV then result.first_air_year else result.release_year
  let yearScore : ℚ :=
    match year, resultYear with
    | some t, some ry =>
      if t ≠ 0 then
        if ry ≠ 0 then
          if ry = t then 150
          else if (ry - t).natAbs = 1 then 30
          else if (ry - t).natAbs ≤ 2 then 10
          else -50
        else -20
      else 0
    | some t, none => if t ≠ 0 then -20 else 0
    | none, _ => 0
  let titleScore : ℚ :=
    if resultTitle = normalizedSearch ∨ originalTitle = normalizedSearch then 100
    else if jsStartsWith resultTitle normalizedSearch ∨ jsStartsWith originalTitle normalizedSearch then 50
    else if strIncludes resultTitle normalizedSearch ∨ strIncludes originalTitle normalizedSearch then 25
    else -30
  yearScore + titleScore + min (result.popularity / 20) 10 + min (result.vote_count / 200) 5

/-- The acceptance threshold: 80 when a (truthy) target year was
supplied, 30 otherwise (`const minScore = year ? 80 : 30`). -/
def minScore (year : Option Int) : ℚ :=
  if yearTruthy year then 80 else 30

/-- The descending-score comparison used by `scored.sort((a, b) => b.score - a.score)`.
A stable insertion sort under this relation reproduces the stable
JavaScript sort. -/
def scoreGE (p q : TMDBResult × ℚ) : Prop := q.2 ≤ p.2

instance : DecidableRel scoreGE :=
  fun p q => inferInstanceAs (Decidable (q.2 ≤ p.2))

instance : IsTotal (TMDBResult × ℚ) scoreGE :=
  ⟨fun a b => le_total b.2 a.2⟩

instance : IsTrans (TMDBResult × ℚ) scoreGE :=
  ⟨fun _ _ _ hab hbc => le_trans hbc hab⟩

/-- `findBestMatch(results, searchTitle, year, isTV)`: `null` on an empty
list, the unique element of a singleton list unconditionally, otherwise
score all candidates, sort descending and accept the top candidate only
if its score reaches `minScore`. -/
def findBestMatch (results : List TMDBResult) (searchTitle : String)
    (year : Option Int) (isTV : Bool) : Option TMDBResult :=
  match results with
  | [] => none
  | [r] => some r
  | _ :: _ :: _ =>
    let scored := results.map (fun r => (r, scoreResult searchTitle year isTV r))
    match List.insertionSort scoreGE scored with
    | [] => none
    | best :: _ => if best.2 < minScore year then none else some best.1

/-! ### Todoist movie parsing (`parseMovieInfo`, part_000 lines 54-190)

`TodoistTask` models the fields of a Todoist REST task that
`parseMovieInfo` reads (`due` stands for `task.due?.date`). -/

structure TodoistTask where
  id : String
  content : String := ""
  description : String := ""
  section_id : String := ""
  parent_id : Option String := none
  labels : List String := []
  priority : Int := 1
  due : Option String := none
  deriving DecidableEq

def SECTIONS_RULES : String := "674GCv5g249xxp3F"
def SECTIONS_WATCHING_NOW : String := "6W4Gvr7pfmMVpJ2m"
def SECTIONS_MOVIES : String := "65CW5hwj3GQG3PCF"
def SECTIONS_SERIES : String := "65CVq4gf6VxMW5jm"
def SECTIONS_TOP_25 : String := "6frj8jR8vM5299vm"

/-- Association-list lookup, modelling `obj[key]` (absent key gives
`undefined`, here `none`). -/
def lookupStr (m : List (String × String)) (k : String) : Option String :=
  (m.find? (fun p => p.1 == k)).map Prod.snd

/-- The hard-coded `SECTION_NAMES` table. -/
def SECTION_NAMES (id : String) : Option String :=
  lookupStr
    [(SECTIONS_RULES, "Правила"),
     (SECTIONS_WATCHING_NOW, "Смотрю сейчас"),
     (SECTIONS_MOVIES, "Фильмы"),
     (SECTIONS_SERIES, "Сериалы"),
     (SECTIONS_TOP_25, "25 главных фильмов XXI века")] id

/-- JavaScript `a || b` for a nullable string `a`: falls through on
`undefined` and on the empty string (both falsy). -/
def jsOrStr (a : Option String) (b : String) : String :=
  match a with
  | some s => if s = "" then b else s
  | none => b

/-- `actualSections[task.section_id] || SECTION_NAMES[task.section_id] || "Другое"`. -/
def sectionNameFor (task : TodoistTask) (sections : List (String × String)) : String :=
  jsOrStr (lookupStr sections task.section_id)
    (jsOrStr (SECTION_NAMES task.section_id) "Другое")

/-- The section-based series heuristic (part_000 lines 94-96):
name equals "Сериалы", or lower-cased name contains "сериал", or the
section id is the SERIES constant. -/
def isSeriesSectionFor (task : TodoistTask) (sections : List (String × String)) : Bool :=
  let sectionName := sectionNameFor task sections
  sectionName == "Сериалы" ||
    strIncludes (jsToLower sectionName) "сериал" ||
    task.section_id == SECTIONS_SERIES

/-- `allTasks.filter(t => t.parent_id === task.id)`. -/
def subtasksOf (task : TodoistTask) (allTasks : List TodoistTask) : List TodoistTask :=
  allTasks.filter (fun t => t.parent_id == some task.id)

/-- Leftmost match of `/[Сс]езон\s*(\d+)/i` at the head of the character
list: the five letters of "сезон" case-insensitively, optional
whitespace, then a maximal nonempty digit run (the capture). -/
def seasonMatchAt (l : List Char) : Option Nat :=
  if (l.take 5).map jsCharToLower = "сезон".data then
    let ds := ((l.drop 5).dropWhile Char.isWhitespace).takeWhile Char.isDigit
    if ds = [] then none else some (digitsVal ds)
  else none

def findSeasonAux : List Char → Option Nat
  | [] => none
  | c :: rest =>
    match seasonMatchAt (c :: rest) with
    | some k => some k
    | none => findSeasonAux rest

/-- `content.match(/[Сс]езон\s*(\d+)/i)`, returning `parseInt` of the
first capture when the pattern matches somewhere in the string. -/
def findSeason (s : String) : Option Nat :=
  findSeasonAux s.data

/-- The season numbers collected over the subtasks (part_000 lines
108-114).  The source gathers them into a `Set`; only deduplication
differs from this list, which does not affect the maximum. -/
def seasonNumbersOf (subtasks : List TodoistTask) : List Nat :=
  subtasks.filterMap (fun st => findSeason st.content)

/-- `Math.max(...seasonNumbers)` guarded by `seasonNumbers.size > 0`. -/
def seasonsOf (subtasks : List TodoistTask) : Option Nat :=
  let ns := seasonNumbersOf subtasks
  if ns.length > 0 then some (ns.foldl Nat.max 0) else none

/-- The series/seasons/episodes inference of part_000 lines 90-136 as a
triple `(isSeries, seasons, episodes)`: the section heuristic, then the
subtask inspection (which may set `isSeries := false` for a
subtask-less "Смотрю сейчас" item), then the final unconditional
SERIES-section override. -/
def seriesFieldsFor (task : TodoistTask) (allTasks : List TodoistTask)
    (sections : List (String × String)) : Bool × Option Nat × Option Nat :=
  let base := isSeriesSectionFor task sections
  let subtasks := subtasksOf task allTasks
  let step :=
    if allTasks.length > 0 then
      if subtasks.length > 0 then (true, seasonsOf subtasks, some subtasks.length)
      else if task.section_id == SECTIONS_WATCHING_NOW then
        (if task.section_id != SECTIONS_SERIES then false else base,
         (none : Option Nat), (none : Option Nat))
      else (base, none, none)
    else
      if task.section_id == SECTIONS_WATCHING_NOW then
        (if task.section_id != SECTIONS_SERIES then false else base,
         (none : Option Nat), (none : Option Nat))
      else (base, none, none)
  (if task.section_id == SECTIONS_SERIES then true else step.1, step.2.1, step.2.2)

/-! Title-cleaning scanners (part_000 lines 139-158), each implementing
one `String.prototype.replace`/`match` with a concrete regular
expression, with JavaScript leftmost-match semantics. -/

/-- `replace(/^[•*#\d]+\s*/, '')`: a nonempty leading run of bullets,
asterisks, hashes and digits, plus following whitespace, is stripped. -/
def stripMarkers (s : String) : String :=
  let cls := fun c => c = '•' ∨ c = '*' ∨ c = '#' ∨ c.isDigit
  let pre := s.data.takeWhile cls
  if pre = [] then s
  else String.mk ((s.data.drop pre.length).dropWhile Char.isWhitespace)

/-- `replace(/^\d+\s+/, '')`: leading digits followed by at least one
whitespace character. -/
def stripLeadingNumber (s : String) : String :=
  let ds := s.data.takeWhile Char.isDigit
  if ds = [] then s
  else
    let rest := s.data.drop ds.length
    let ws := rest.takeWhile Char.isWhitespace
    if ws = [] then s else String.mk (rest.drop ws.length)

/-- Match of `\(\d{4}\)` at the head of the character list. -/
def parenYearAt : List Char → Option Nat
  | '(' :: a :: b :: c :: d :: ')' :: _ =>
    if a.isDigit ∧ b.isDigit ∧ c.isDigit ∧ d.isDigit then
      some (digitsVal [a, b, c, d])
    else none
  | _ => none

def findParenYearAux : List Char → Option Nat
  | [] => none
  | c :: rest =>
    match parenYearAt (c :: rest) with
    | some y => some y
    | none => findParenYearAux rest

/-- `title.match(/\((\d{4})\)/)`, as `parseInt` of the first capture. -/
def findParenYear (s : String) : Option Nat :=
  findParenYearAux s.data

/-- Whether the tail after an em dash satisfies `\s*(.+)$` (without the
`m` flag `$` only matches at the very end and `.` excludes newlines):
after the whitespace there is at least one character and no newline. -/
def dashTailOk (rest : List Char) : Bool :=
  let r := rest.dropWhile Char.isWhitespace
  !r.isEmpty && !r.any (fun c => c = '\n')

/-- `title.match(/—\s*(.+)$/)`: the capture of the first em dash whose
tail qualifies. -/
def findDirectorAux : List Char → Option (List Char)
  | [] => none
  | c :: rest =>
    if c = '—' ∧ dashTailOk rest then some (rest.dropWhile Char.isWhitespace)
    else findDirectorAux rest

def findDirector (s : String) : Option String :=
  (findDirectorAux s.data).map String.mk

/-- `title.replace(/\s*—\s*.+$/, '')`: everything from the whitespace
preceding the first qualifying em dash is removed (`acc` carries the
kept prefix, reversed). -/
def removeDirectorAux (acc : List Char) : List Char → List Char
  | [] => acc.reverse
  | c :: rest =>
    if c = '—' ∧ dashTailOk rest then (acc.dropWhile Char.isWhitespace).reverse
    else removeDirectorAux (c :: acc) rest

def removeDirector (s : String) : String :=
  String.mk (removeDirectorAux [] s.data)

/-- `title.replace(/\s*\(\d{4}\)\s*/, ' ')`: the first parenthesised
four-digit year, with surrounding whitespace, becomes a single space. -/
def replaceParenYearAux (acc : List Char) : List Char → List Char
  | [] => acc.reverse
  | c :: rest =>
    match parenYearAt (c :: rest) with
    | some _ =>
      (acc.dropWhile Char.isWhitespace).reverse ++
        ' ' :: ((c :: rest).drop 6).dropWhile Char.isWhitespace
    | none => replaceParenYearAux (c :: acc) rest

def replaceFirstParenYear (s : String) : String :=
  String.mk (replaceParenYearAux [] s.data)

/-- The result record of `parseMovieInfo`, restricted to the fields the
claims mention together with the title/year/director extraction; the
rating fields (`kinopoiskRating`, `imdbRating`) and the free-text
`reason`, extracted from the description by independent scans and used
by no claim, are omitted from this embedding. -/
structure MovieInfo where
  id : String
  title : String
  description : String
  sectionId : String
  sectionName : String
  labels : List String
  priority : Int
  dueDate : Option String
  year : Option Nat
  director : Option String
  isSeries : Bool
  seasons : Option Nat
  episodes : Option Nat
  deriving DecidableEq

/-- `parseMovieInfo(task, allTasks, actualSections)` (part_000 lines
54-190, without the description-rating scan). -/
def parseMovieInfo (task : TodoistTask) (allTasks : List TodoistTask)
    (sections : List (String × String)) : MovieInfo :=
  let sectionName := sectionNameFor task sections
  let sfields := seriesFieldsFor task allTasks sections
  let t1 := jsTrim (stripLeadingNumber (stripMarkers task.content))
  let year := findParenYear t1
  let director := (findDirector t1).map jsTrim
  let t2 := match findDirector t1 with
    | some _ => jsTrim (removeDirector t1)
    | none => t1
  let t3 := jsTrim (replaceFirstParenYear t2)
  { id := task.id
    title := t3
    description := task.description
    sectionId := task.section_id
    sectionName := sectionName
    labels := task.labels
    priority := task.priority
    dueDate := task.due
    year := year
    director := director
    isSeries := sfields.1
    seasons := sfields.2.1
    episodes := sfields.2.2 }

/-! ### The versioned localStorage cache (openlib.js lines 17-101, 465-563)

The in-memory `Map` is embedded as an insertion-ordered association
list; `Map.prototype.set` updates an existing key in place and appends
a fresh key.  Values of type `Option α` model nullable cached results
(`none` is a cached `null`, a confirmed no-match).  The two cache
modules (books and TMDB posters) share this logic; the embedding uses
the `CACHE_VERSION = 2` of the book module (the TMDB one differs only in the
constant, `1`). -/

def mapSet (m : List (String × β)) (k : String) (v : β) : List (String × β) :=
  if m.any (fun p => p.1 == k) then
    m.map (fun p => if p.1 == k then (k, v) else p)
  else m ++ [(k, v)]

def mapGet (m : List (String × β)) (k : String) : Option β :=
  (m.find? (fun p => p.1 == k)).map Prod.snd

def mapHas (m : List (String × β)) (k : String) : Bool :=
  m.any (fun p => p.1 == k)

/-- The in-memory cache: insertion-ordered entries of nullable results. -/
abbrev CacheMap (α : Type) : Type := List (String × Option α)

/-- The parsed form of the persisted blob
`{version, expiry, data}`.  A stored blob lacking the `expiry` field is
represented by `expiry = 0`, which is falsy exactly like the absent
field in `parsed.expiry && parsed.expiry < Date.now()`. -/
structure StoredBlob (α : Type) where
  version : Int
  expiry : Int
  data : CacheMap α

/-- `JSON.stringify` of a string without escape-worthy characters. -/
def jsonString (s : String) : String :=
  "\"" ++ s ++ "\""

/-- `JSON.stringify` of a nullable value, given a serializer for the
value type (the cache is generic over a serializable value type). -/
def jsonValue (ser : α → String) : Option α → String
  | none => "null"
  | some a => ser a

def entryStr (ser : α → String) (kv : String × Option α) : String :=
  jsonString kv.1 ++ ":" ++ jsonValue ser kv.2

def joinPairs (ser : α → String) : List (String × Option α) → String
  | [] => ""
  | [kv] => entryStr ser kv
  | kv :: kv2 :: rest => entryStr ser kv ++ "," ++ joinPairs ser (kv2 :: rest)

/-- `JSON.stringify({version, expiry, data})` for the stored blob shape
(`.length` on the result models the JavaScript length check; for the
ASCII/BMP text involved, code points and UTF-16 units coincide). -/
def stringifyBlob (ser : α → String) (version expiry : Int) (data : CacheMap α) : String :=
  "\x7b\"version\":" ++ toString version ++ ",\"expiry\":" ++ toString expiry ++
    ",\"data\":\x7b" ++ joinPairs ser data ++ "\x7d\x7d"

def CACHE_VERSION : Int := 2

def CACHE_EXPIRY_MS : Int := 30 * 24 * 60 * 60 * 1000

/-- `saveCacheToStorage` (openlib.js lines 51-79): serialize the
in-memory map with a fresh 30-day expiry; if the JSON string exceeds
4 MB, replace the data with `entries.slice(0, Math.floor(entries.length * 0.8))`
before writing.  `Math.floor(n * 0.8)` equals `4 * n / 5` in `Nat`
arithmetic (the double 0.8 is slightly above 4/5, and rounding of the
product never drops below the exact value).  The returned blob is the
parsed form of what `localStorage.setItem` persists. -/
def saveCacheToStorage (ser : α → String) (m : CacheMap α) (now : Int) : StoredBlob α :=
  let expiry := now + CACHE_EXPIRY_MS
  let json := stringifyBlob ser CACHE_VERSION expiry m
  if json.length > 4 * 1024 * 1024 then
    { version := CACHE_VERSION, expiry := expiry, data := m.take (4 * m.length / 5) }
  else
    { version := CACHE_VERSION, expiry := expiry, data := m }

/-- `loadCacheFromStorage` (openlib.js lines 17-46): returns the
in-memory cache after loading and the surviving stored blob (`none`
models `localStorage.removeItem`).  A version mismatch or a truthy,
elapsed expiry discards the whole blob and loads nothing; otherwise
every stored entry is `cache.set` into the in-memory map. -/
def loadCacheFromStorage (stored : Option (StoredBlob α)) (now : Int)
    (cache : CacheMap α) : CacheMap α × Option (StoredBlob α) :=
  match stored with
  | none => (cache, none)
  | some b =>
    if b.version ≠ CACHE_VERSION then (cache, none)
    else if b.expiry ≠ 0 ∧ b.expiry < now then (cache, none)
    else (b.data.foldl (fun c kv => mapSet c kv.1 kv.2) cache, some b)

/-- A 1,100,000-character value: five such entries serialize past the
4 MB threshold. -/
def bigVal : String := String.mk (List.replicate 1100000 'a')

def bigCache4 : CacheMap String :=
  [("k1", some bigVal), ("k2", some bigVal), ("k3", some bigVal), ("k4", some bigVal)]

def bigCache5 : CacheMap String :=
  bigCache4 ++ [("k5", some bigVal)]

/-! ### `fetchWithRetry` (part_000 lines 11-32)

The network is an oracle from the attempt index to either a thrown
network error (`Except.error ()`) or a received HTTP response — which
the wrapper returns as-is, without inspecting `response.ok`.  The
embedding returns the outcome together with the list of attempt
indices issued and the list of delays (in ms) slept between attempts.
The recursion is fuelled by `maxRetries`, matching the `for` loop. -/

structure HttpResponse where
  ok : Bool
  status : Nat
  deriving DecidableEq

def fetchRetryAux (fetch : Nat → Except Unit HttpResponse) (maxRetries : Nat) :
    Nat → Nat → Except Unit HttpResponse × List Nat × List Nat
  | _, 0 => (Except.error (), [], [])
  | attempt, fuel + 1 =>
    if attempt < maxRetries then
      match fetch attempt with
      | Except.ok r => (Except.ok r, [attempt], [])
      | Except.error _ =>
        let ds := if attempt < maxRetries - 1 then [2 ^ attempt * 1000] else []
        let (res, ats, dls) := fetchRetryAux fetch maxRetries (attempt + 1) fuel
        (res, attempt :: ats, ds ++ dls)
    else (Except.error (), [], [])

/-- `fetchWithRetry(url, options, maxRetries = 3)`: attempts the fetch
up to `maxRetries` times, sleeping `2^attempt * 1000` ms after each
failed attempt except the last, and throws (`Except.error`) only after
every attempt has failed. -/
def fetchWithRetry (fetch : Nat → Except Unit HttpResponse) (maxRetries : Nat := 3) :
    Except Unit HttpResponse × List Nat × List Nat :=
  fetchRetryAux fetch maxRetries 0 maxRetries

/-! ### Batch orchestration (`batchSearchBooks`, openlib.js lines 357-409)

The per-item matcher is an oracle `BookItem → Except ε (Option β)`:
`Except.error` models a thrown error (caught and recorded as `null`),
`Except.ok v` a returned result (possibly `null`).  The event trace
records each issued group of concurrent calls and each inter-batch
delay; the source delays after every batch except the last
(`batch !== batches[batches.length - 1]` is reference equality on the
freshly sliced arrays, i.e. a positional test). -/

structure BookItem where
  id : String
  title : String := ""
  author : Option String := none
  deriving DecidableEq

inductive BatchEvent
  | group (ids : List String)
  | delay (ms : Nat)
  deriving DecidableEq

def BATCH_SIZE : Nat := 3

/-- The slicing loop `for (i = 0; i < books.length; i += BATCH_SIZE)`,
fuelled by the list length (enough since `size ≥ 1` at every call
site). -/
def chunkAux (size : Nat) : Nat → List α → List (List α)
  | 0, _ => []
  | _, [] => []
  | fuel + 1, l => l.take size :: chunkAux size fuel (l.drop size)

def chunkList (size : Nat) (l : List α) : List (List α) :=
  chunkAux size l.length l

/-- One batch: every item is searched (`Promise.all` keeps the batch
order), a thrown error becomes a `null` result, and each outcome is
`results.set(book.id, result)`. -/
def processBatch (search : BookItem → Except ε (Option β)) (batch : List BookItem)
    (acc : List (String × Option β)) : List (String × Option β) :=
  batch.foldl
    (fun r book =>
      mapSet r book.id
        (match search book with
         | Except.ok v => v
         | Except.error _ => none))
    acc

def runBatches (search : BookItem → Except ε (Option β)) (acc : List (String × Option β)) :
    List (List BookItem) → List (String × Option β) × List BatchEvent
  | [] => (acc, [])
  | [batch] => (processBatch search batch acc, [BatchEvent.group (batch.map BookItem.id)])
  | batch :: batch2 :: rest =>
    let acc2 := processBatch search batch acc
    let (res, evs) := runBatches search acc2 (batch2 :: rest)
    (res, BatchEvent.group (batch.map BookItem.id) :: BatchEvent.delay 200 :: evs)

/-- `batchSearchBooks(books)`: the id-keyed result map and the trace of
issued groups and inter-batch delays. -/
def batchSearchBooks (search : BookItem → Except ε (Option β)) (books : List BookItem) :
    List (String × Option β) × List BatchEvent :=
  runBatches search [] (chunkList BATCH_SIZE books)

/-! ### Concrete fixtures used by witnesses and counterexamples -/

/-- The 1996 "Fargo" candidate of the matching scenario. -/
def fargo1996 : TMDBResult :=
  { title := "Fargo", release_year := some 1996, popularity := 40, vote_count := 6000 }

/-- The 2014 "Fargo" TV-adaptation candidate (released 18 years later). -/
def fargo2014 : TMDBResult :=
  { title := "Fargo", release_year := some 2014, popularity := 80, vote_count := 3000 }

/-- A lone candidate whose score against the query "abc" with year 2000
is −80: year 1900 is penalised −50 and the title "zzz" shares no text
with the query (−30). -/
def lowCandidate : TMDBResult :=
  { title := "zzz", release_year := some 1900, popularity := 0, vote_count := 0 }

def badA : TMDBResult :=
  { title := "zzz", release_year := some 1900, popularity := 0, vote_count := 0 }

def badB : TMDBResult :=
  { title := "qqq", release_year := some 1901, popularity := 0, vote_count := 0 }

/-- A task sitting in the SERIES section, with no subtasks anywhere. -/
def seriesTask : TodoistTask :=
  { id := "m1", content := "Тест", section_id := SECTIONS_SERIES }

/-- A task in the "Смотрю сейчас" section of a project whose live
section table names that section "Сериалы". -/
def renamedTask : TodoistTask :=
  { id := "m3", content := "Фильм X", section_id := SECTIONS_WATCHING_NOW }

def renamedSections : List (String × String) :=
  [(SECTIONS_WATCHING_NOW, "Сериалы")]

/-- A series task with two episode subtasks, one naming season 1 and one
naming season 3. -/
def showTask : TodoistTask :=
  { id := "m2", content := "Шоу", section_id := SECTIONS_MOVIES }

def episode1 : TodoistTask :=
  { id := "e1", content := "Сезон 1, Эпизод 2", parent_id := some "m2" }

def episode2 : TodoistTask :=
  { id := "e2", content := "СЕЗОН 3", parent_id := some "m2" }

def showTasks : List TodoistTask := [showTask, episode1, episode2]

/-- An expired-in-the-past stored blob with a stale version. -/
def staleBlob : StoredBlob Nat :=
  { version := 1, expiry := 1, data := [("k", some 7)] }

/-- Seven batch items with distinct ids; `witnessSearch` fails on the
fifth (the middle of the second group of three) and finds a result for
every other item. -/
def witnessBooks : List BookItem :=
  [{ id := "b1" }, { id := "b2" }, { id := "b3" }, { id := "b4" },
   { id := "b5" }, { id := "b6" }, { id := "b7" }]

def witnessSearch : BookItem → Except Unit (Option Nat) :=
  fun b => if b.id = "b5" then Except.error () else Except.ok (some 0)

/-! ### Helper lemmas (shared across claims) -/

theorem strLengthAppend (s t : String) : (s ++ t).length = s.length + t.length :=
  String.length_append s t

theorem bigVal_length : bigVal.length = 1100000 := by
  show (List.replicate 1100000 'a').length = 1100000
  exact List.length_replicate _ _

theorem le_foldl_max (l : List Nat) (a : Nat) : a ≤ l.foldl Nat.max a := by
  induction l generalizing a with
  | nil => exact Nat.le_refl a
  | cons x xs ih => exact Nat.le_trans (Nat.le_max_left a x) (ih (Nat.max a x))

theorem mem_le_foldl_max (l : List Nat) (a : Nat) : ∀ x ∈ l, x ≤ l.foldl Nat.max a := by
  induction l generalizing a with
  | nil => intro x hx; exact absurd hx (List.not_mem_nil x)
  | cons y ys ih =>
    intro x hx
    rcases List.mem_cons.mp hx with rfl | hx
    · exact Nat.le_trans (Nat.le_max_right a x) (le_foldl_max ys _)
    · exact ih (Nat.max a y) x hx

theorem foldl_max_mem (l : List Nat) (a : Nat) :
    l.foldl Nat.max a = a ∨ l.foldl Nat.max a ∈ l := by
  induction l generalizing a with
  | nil => exact Or.inl rfl
  | cons y ys ih =>
    rcases ih (Nat.max a y) with h | h
    · rcases Nat.le_total a y with hle | hle
      · have hm : Nat.max a y = y := sup_eq_right.mpr hle
        exact Or.inr (by rw [List.foldl_cons, h, hm]; exact List.mem_cons_self y ys)
      · have hm : Nat.max a y = a := sup_eq_left.mpr hle
        exact Or.inl (by rw [List.foldl_cons, h, hm])
    · exact Or.inr (List.mem_cons_of_mem y h)

theorem any_key_false {m : List (String × β)} {k : String}
    (h : (m.any fun p => p.1 == k) = false) : ∀ p ∈ m, p.1 ≠ k := by
  intro p hp he
  have ht : (m.any fun p => p.1 == k) = true :=
    List.any_eq_true.mpr ⟨p, hp, by simp [he]⟩
  rw [h] at ht
  exact Bool.false_ne_true ht

theorem mapSet_append_of_not_has (m : List (String × β)) (k : String) (v : β)
    (h : mapHas m k = false) : mapSet m k v = m ++ [(k, v)] := by
  unfold mapSet
  unfold mapHas at h
  rw [h]
  simp

theorem find_update (m : List (String × β)) (k : String) (v : β)
    (h : m.any (fun p => p.1 == k) = true) :
    (m.map (fun p => if p.1 == k then (k, v) else p)).find? (fun p => p.1 == k) = some (k, v) := by
  induction m with
  | nil => simp at h
  | cons p rest ih =>
    by_cases hp : (p.1 == k) = true
    · have hhd : (if (p.1 == k) = true then (k, v) else p) = (k, v) := by rw [if_pos hp]
      rw [List.map_cons, hhd, List.find?_cons_of_pos _ (by simp)]
    · have hpf : (p.1 == k) = false := Bool.not_eq_true _ ▸ Bool.of_not_eq_true hp
      have hhd : (if (p.1 == k) = true then (k, v) else p) = p := by rw [if_neg hp]
      have h2 : rest.any (fun p => p.1 == k) = true := by
        rcases List.any_eq_true.mp h with ⟨q, hq, hqk⟩
        rcases List.mem_cons.mp hq with rfl | hq
        · exact absurd hqk hp
        · exact List.any_eq_true.mpr ⟨q, hq, hqk⟩
      rw [List.map_cons, hhd, List.find?_cons_of_neg _ (by simp [hpf]), ih h2]

theorem mapGet_mapSet_self (m : List (String × β)) (k : String) (v : β) :
    mapGet (mapSet m k v) k = some v := by
  by_cases h : (m.any fun p => p.1 == k) = true
  · unfold mapSet
    rw [h]
    simp only [if_true]
    unfold mapGet
    rw [find_update m k v h]
    rfl
  · have hf : (m.any fun p => p.1 == k) = false := Bool.of_not_eq_true h
    unfold mapSet
    rw [hf]
    simp only [Bool.false_eq_true, if_false]
    unfold mapGet
    rw [List.find?_append]
    have hnone : m.find? (fun p => p.1 == k) = none := by
      rw [List.find?_eq_none]
      intro x hx hxk
      exact any_key_false hf x hx (by simpa using hxk)
    rw [hnone]
    simp [List.find?]

theorem load_foldl (l : List (String × β)) (acc : List (String × β))
    (hdisj : ∀ kv ∈ l, mapHas acc kv.1 = false)
    (hnd : (l.map Prod.fst).Nodup) :
    l.foldl (fun c kv => mapSet c kv.1 kv.2) acc = acc ++ l := by
  induction l generalizing acc with
  | nil => simp
  | cons kv rest ih =>
    rw [List.foldl_cons, mapSet_append_of_not_has _ _ _ (hdisj kv (List.mem_cons_self kv rest))]
    rw [List.map_cons, List.nodup_cons] at hnd
    rw [ih (acc ++ [kv]) ?_ hnd.2]
    · simp
    · intro p hp
      unfold mapHas
      rw [List.any_append]
      have h1 : acc.any (fun q => q.1 == p.1) = false := hdisj p (List.mem_cons_of_mem kv hp)
      have h2 : (kv.1 == p.1) = false := by
        have hne : kv.1 ≠ p.1 := by
          intro he
          exact hnd.1 (he ▸ List.mem_map_of_mem Prod.fst hp)
        simpa using hne
      simp [h1, h2]

theorem keys_mapSet_of_has (m : List (String × β)) (k : String) (v : β)
    (h : (m.any fun p => p.1 == k) = true) :
    (mapSet m k v).map Prod.fst = m.map Prod.fst := by
  unfold mapSet
  rw [h]
  simp only [if_true, List.map_map]
  congr 1
  funext p
  by_cases hp : (p.1 == k) = true
  · simp only [Function.comp_apply, hp, if_true]
    exact (eq_of_beq hp).symm
  · have hp2 : ¬ p.1 = k := fun he => hp (by simp [he])
    simp [Function.comp_apply, hp2]

theorem nodup_keys_mapSet (m : List (String × β)) (k : String) (v : β)
    (hnd : (m.map Prod.fst).Nodup) : ((mapSet m k v).map Prod.fst).Nodup := by
  by_cases h : (m.any fun p => p.1 == k) = true
  · rw [keys_mapSet_of_has m k v h]
    exact hnd
  · have hf : (m.any fun p => p.1 == k) = false := Bool.of_not_eq_true h
    unfold mapSet
    rw [hf]
    simp only [Bool.false_eq_true, if_false, List.map_append, List.map_cons, List.map_nil]
    rw [List.nodup_append]
    refine ⟨hnd, List.nodup_singleton k, ?_⟩
    intro x hx
    simp only [List.mem_singleton]
    obtain ⟨p, hp, rfl⟩ := List.mem_map.mp hx
    intro he
    exact any_key_false hf p hp he

/-! ### Claim theorems -/

/-- C10: a provider response with exactly one candidate is returned by
`findBestMatch` unconditionally — for every search title, every target
year (present or absent) and both media kinds — so no score, year
check or minimum-score threshold can reject it; rejection logic only
exists on the two-or-more-candidates path. -/
theorem c10_theorem (r : TMDBResult) (searchTitle : String) (year : Option Int) (isTV : Bool) :
    findBestMatch [r] searchTitle year isTV = some r := rfl

/-- C7: if the version of the persisted blob differs from the cache
version of the running code, or its expiry is truthy and in the past, loading discards
the entire stored blob (storage is removed) and populates the in-memory
cache with no entries — every key is a miss; the expiry is
all-or-nothing, never per key. -/
theorem c7_theorem {α : Type} (b : StoredBlob α) (now : Int)
    (h : b.version ≠ CACHE_VERSION ∨ (b.expiry ≠ 0 ∧ b.expiry < now)) :
    loadCacheFromStorage (some b) now ([] : CacheMap α) = ([], none) ∧
    ∀ k, mapGet (loadCacheFromStorage (some b) now ([] : CacheMap α)).1 k = none := by
  have hmain : loadCacheFromStorage (some b) now ([] : CacheMap α) = ([], none) := by
    rcases h with h | h
    · simp [loadCacheFromStorage, h]
    · rcases eq_or_ne b.version CACHE_VERSION with hv | hv
      · simp [loadCacheFromStorage, hv, h]
      · simp [loadCacheFromStorage, hv]
  refine ⟨hmain, fun k => ?_⟩
  rw [hmain]
  simp [mapGet, List.find?]

/-- C7 witness: a blob with version 1 (≠ 2) and one stored entry is
discarded wholesale on load at time 0. -/
theorem c7_witness :
    (staleBlob.version ≠ CACHE_VERSION ∨ (staleBlob.expiry ≠ 0 ∧ staleBlob.expiry < 0)) ∧
    (loadCacheFromStorage (some staleBlob) 0 ([] : CacheMap Nat) = ([], none) ∧
      ∀ k, mapGet (loadCacheFromStorage (some staleBlob) 0 ([] : CacheMap Nat)).1 k = none) :=
  ⟨Or.inl (by decide), c7_theorem staleBlob 0 (Or.inl (by decide))⟩

/-- C8 counterexample: with every attempt failing at the network level,
the wrapper performs exactly three attempts but sleeps only twice — 1s
after the first failure and 2s after the second; the delay trace is
[1000, 2000], not the [1000, 2000, 4000] of the claim (no 4s delay is
ever slept, since nothing follows the third failure). -/
theorem c8_counterexample :
    fetchWithRetry (fun _ => Except.error ()) 3 =
      (Except.error (), [0, 1, 2], [1000, 2000]) ∧
    ([1000, 2000] : List Nat) ≠ [1000, 2000, 4000] :=
  ⟨rfl, by decide⟩

/-- C8 (amended): a task-source call wrapped by `fetchWithRetry` is
attempted exactly 3 times on persistent network-level failure, with
exponential-backoff delays of 1s and 2s between consecutive attempts
(the 4s backoff step is never slept, as there is no attempt after the
third failure), and throws only after all attempts fail; any received
HTTP response — including one with a non-ok error status — is returned
to the caller immediately with no retry. -/
theorem c8_amended (f g : Nat → Except Unit HttpResponse) (r : HttpResponse)
    (hf : ∀ a, a < 3 → f a = Except.error ())
    (hg : g 0 = Except.ok r) :
    fetchWithRetry f 3 = (Except.error (), [0, 1, 2], [1000, 2000]) ∧
    fetchWithRetry g 3 = (Except.ok r, [0], []) := by
  constructor
  · have h0 := hf 0 (by norm_num)
    have h1 := hf 1 (by norm_num)
    have h2 := hf 2 (by norm_num)
    simp [fetchWithRetry, fetchRetryAux, h0, h1, h2]
  · simp [fetchWithRetry, fetchRetryAux, hg]

/-- C8 witness: the always-failing oracle yields three attempts, delays
[1000, 2000] and a throw; an oracle answering the first attempt with an
HTTP 500 (non-ok) response gets that response back immediately after a
single attempt and no delay. -/
theorem c8_witness :
    fetchWithRetry (fun _ => Except.error ()) 3 = (Except.error (), [0, 1, 2], [1000, 2000]) ∧
    fetchWithRetry (fun _ => Except.ok ⟨false, 500⟩) 3 = (Except.ok ⟨false, 500⟩, [0], []) :=
  c8_amended (fun _ => Except.error ()) (fun _ => Except.ok ⟨false, 500⟩) ⟨false, 500⟩
    (fun _ _ => rfl) rfl

/-- C4 counterexample: a task whose live section table names its
section "Сериалы" — so the task is in the "Series" bucket by section
name — but whose section id is the (hard-coded) "Смотрю сейчас" id and
which has no subtasks, is parsed with `isSeries = false`: the claim
fails as stated for the section-name half of its "Series bucket"
definition. -/
theorem c4_counterexample :
    (parseMovieInfo renamedTask [renamedTask] renamedSections).sectionName = "Сериалы" ∧
    (parseMovieInfo renamedTask [renamedTask] renamedSections).isSeries = false :=
  ⟨by decide, by decide⟩

/-- C4 (amended): for every task whose section id is `SECTIONS.SERIES`,
or whose section name is "Сериалы" while its section id is not
`SECTIONS.WATCHING_NOW`, `parseMovieInfo` returns `isSeries = true`
regardless of subtask presence — in particular with zero subtasks. -/
theorem c4_amended (task : TodoistTask) (allTasks : List TodoistTask)
    (sections : List (String × String))
    (h : task.section_id = SECTIONS_SERIES ∨
      (sectionNameFor task sections = "Сериалы" ∧ task.section_id ≠ SECTIONS_WATCHING_NOW)) :
    (parseMovieInfo task allTasks sections).isSeries = true := by
  have hfield : (parseMovieInfo task allTasks sections).isSeries =
      (seriesFieldsFor task allTasks sections).1 := rfl
  rw [hfield]
  rcases h with h | ⟨hn, hw⟩
  · simp [seriesFieldsFor, h]
  · have hbase : isSeriesSectionFor task sections = true := by
      simp [isSeriesSectionFor, hn]
    have hwb : (task.section_id == SECTIONS_WATCHING_NOW) = false := by
      simpa using hw
    simp only [seriesFieldsFor, hwb, hbase, Bool.false_eq_true, if_false]
    split_ifs <;> simp

/-- C4 witness: a SERIES-section task with zero subtasks in the whole
task list still parses with `isSeries = true`. -/
theorem c4_witness :
    (seriesTask.section_id = SECTIONS_SERIES ∨
      (sectionNameFor seriesTask [] = "Сериалы" ∧ seriesTask.section_id ≠ SECTIONS_WATCHING_NOW)) ∧
    (parseMovieInfo seriesTask [seriesTask] []).isSeries = true :=
  ⟨Or.inl rfl, c4_amended seriesTask [seriesTask] [] (Or.inl rfl)⟩

/-- C5: a task with N > 0 child subtasks in the passed task list parses
with `episodes = N`; its `seasons` field is the maximum season number
matched by the `/[Сс]езон\s*(\d+)/i` pattern across the subtask
contents when at least one subtask matches, and `null` when none
matches. -/
theorem c5_theorem (task : TodoistTask) (allTasks : List TodoistTask)
    (sections : List (String × String))
    (hsub : 0 < (subtasksOf task allTasks).length) :
    (parseMovieInfo task allTasks sections).episodes = some (subtasksOf task allTasks).length ∧
    (seasonNumbersOf (subtasksOf task allTasks) = [] →
      (parseMovieInfo task allTasks sections).seasons = none) ∧
    (seasonNumbersOf (subtasksOf task allTasks) ≠ [] →
      ∃ K, (parseMovieInfo task allTasks sections).seasons = some K ∧
        K ∈ seasonNumbersOf (subtasksOf task allTasks) ∧
        ∀ k ∈ seasonNumbersOf (subtasksOf task allTasks), k ≤ K) := by
  have hall : 0 < allTasks.length := by
    cases allTasks with
    | nil => simp [subtasksOf] at hsub
    | cons t ts => simp
  have hfe : (parseMovieInfo task allTasks sections).episodes =
      (seriesFieldsFor task allTasks sections).2.2 := rfl
  have hfs : (parseMovieInfo task allTasks sections).seasons =
      (seriesFieldsFor task allTasks sections).2.1 := rfl
  have hstep : (seriesFieldsFor task allTasks sections).2.1 = seasonsOf (subtasksOf task allTasks) ∧
      (seriesFieldsFor task allTasks sections).2.2 = some (subtasksOf task allTasks).length := by
    simp only [seriesFieldsFor, hall, hsub, if_true, gt_iff_lt]
    exact ⟨trivial, trivial⟩
  refine ⟨by rw [hfe, hstep.2], fun hm => ?_, fun hm => ?_⟩
  · rw [hfs, hstep.1]
    simp [seasonsOf, hm]
  · rw [hfs, hstep.1]
    have hlen : 0 < (seasonNumbersOf (subtasksOf task allTasks)).length :=
      List.length_pos.mpr hm
    refine ⟨(seasonNumbersOf (subtasksOf task allTasks)).foldl Nat.max 0, ?_, ?_, ?_⟩
    · simp [seasonsOf, hlen]
    · rcases foldl_max_mem (seasonNumbersOf (subtasksOf task allTasks)) 0 with h0 | hmem
      · obtain ⟨x, hx⟩ := List.exists_mem_of_ne_nil _ hm
        have hx0 : x ≤ 0 := by
          have := mem_le_foldl_max (seasonNumbersOf (subtasksOf task allTasks)) 0 x hx
          rw [h0] at this
          exact this
        have hxz : x = 0 := Nat.le_zero.mp hx0
        rw [h0]
        exact hxz ▸ hx
      · exact hmem
    · exact mem_le_foldl_max _ 0

/-- C5 witness: a task with two episode subtasks, whose contents match
season 1 and season 3 ("СЕЗОН 3" matches case-insensitively), parses
with `episodes = 2` and `seasons = 3`. -/
theorem c5_witness :
    0 < (subtasksOf showTask showTasks).length ∧
    ((parseMovieInfo showTask showTasks []).episodes = some (subtasksOf showTask showTasks).length ∧
    (seasonNumbersOf (subtasksOf showTask showTasks) = [] →
      (parseMovieInfo showTask showTasks []).seasons = none) ∧
    (seasonNumbersOf (subtasksOf showTask showTasks) ≠ [] →
      ∃ K, (parseMovieInfo showTask showTasks []).seasons = some K ∧
        K ∈ seasonNumbersOf (subtasksOf showTask showTasks) ∧
        ∀ k ∈ seasonNumbersOf (subtasksOf showTask showTasks), k ≤ K)) :=
  ⟨by decide, c5_theorem showTask showTasks [] (by decide)⟩

theorem head_insertionSort_mem {l : List (TMDBResult × ℚ)} {best : TMDBResult × ℚ}
    {tail : List (TMDBResult × ℚ)}
    (h : List.insertionSort scoreGE l = best :: tail) : best ∈ l := by
  have hm : best ∈ List.insertionSort scoreGE l := by
    rw [h]; exact List.mem_cons_self _ _
  exact (List.mem_insertionSort scoreGE).mp hm

/-- C2: against a candidate list holding exactly two candidates whose
titles both normalise to the search title, one released in the target
year and the other more than two years away, `findBestMatch` with that
target year selects the exact-year candidate (in either list order):
its score is at least 150 + 100 = 250, the far candidate reaches at
most −20 + 100 + 10 + 5 = 95, and 250 clears the year-supplied
threshold of 80. -/
theorem c2_theorem (a1 a2 : TMDBResult) (searchTitle : String) (y y2 : Int)
    (hy : y ≠ 0)
    (ht1 : jsToLower a1.title = normalizeQuery searchTitle)
    (ht2 : jsToLower a2.title = normalizeQuery searchTitle)
    (hy1 : a1.release_year = some y)
    (hy2 : a2.release_year = some y2)
    (hfar : 2 < (y2 - y).natAbs)
    (hp : 0 ≤ a1.popularity) (hv : 0 ≤ a1.vote_count)
    (results : List TMDBResult) (hres : results = [a1, a2] ∨ results = [a2, a1]) :
    findBestMatch results searchTitle (some y) false = some a1 := by
  have hmin1 : 0 ≤ min (a1.popularity / 20) (10 : ℚ) :=
    le_min (div_nonneg hp (by norm_num)) (by norm_num)
  have hmin2 : 0 ≤ min (a1.vote_count / 200) (5 : ℚ) :=
    le_min (div_nonneg hv (by norm_num)) (by norm_num)
  have hmin3 : min (a2.popularity / 20) (10 : ℚ) ≤ 10 := min_le_right _ _
  have hmin4 : min (a2.vote_count / 200) (5 : ℚ) ≤ 5 := min_le_right _ _
  have hs1 : 250 ≤ scoreResult searchTitle (some y) false a1 := by
    simp only [scoreResult, hy1, ht1, Bool.false_eq_true, if_false]
    rw [if_pos hy, if_pos hy]
    simp only [if_true, true_or]
    linarith
  have hs2 : scoreResult searchTitle (some y) false a2 ≤ 95 := by
    simp only [scoreResult, hy2, ht2, Bool.false_eq_true, if_false]
    simp only [if_true, true_or]
    by_cases hz : y2 = 0
    · rw [if_pos hy, if_neg (by simp [hz])]
      linarith
    · have hne : ¬ y2 = y := by
        intro he
        rw [he] at hfar
        simp at hfar
      have hone : ¬ (y2 - y).natAbs = 1 := by omega
      have htwo : ¬ (y2 - y).natAbs ≤ 2 := by omega
      rw [if_pos hy, if_pos hz, if_neg hne, if_neg hone, if_neg htwo]
      linarith
  have h80 : minScore (some y) = 80 := by simp [minScore, yearTruthy, hy]
  have hnotlt : ¬ scoreResult searchTitle (some y) false a1 < minScore (some y) := by
    rw [h80]
    linarith
  rcases hres with rfl | rfl
  · have hord : scoreGE (a1, scoreResult searchTitle (some y) false a1)
        (a2, scoreResult searchTitle (some y) false a2) := by
      show scoreResult searchTitle (some y) false a2 ≤ scoreResult searchTitle (some y) false a1
      linarith
    have hsort2 : List.insertionSort scoreGE
        ([a1, a2].map fun r => (r, scoreResult searchTitle (some y) false r)) =
        [(a1, scoreResult searchTitle (some y) false a1),
         (a2, scoreResult searchTitle (some y) false a2)] := by
      simp only [List.map, List.insertionSort, List.orderedInsert]
      rw [if_pos hord]
    simp only [findBestMatch, hsort2, if_neg hnotlt]
  · have hord : ¬ scoreGE (a2, scoreResult searchTitle (some y) false a2)
        (a1, scoreResult searchTitle (some y) false a1) := by
      show ¬ scoreResult searchTitle (some y) false a1 ≤ scoreResult searchTitle (some y) false a2
      push_neg
      linarith
    have hsort2 : List.insertionSort scoreGE
        ([a2, a1].map fun r => (r, scoreResult searchTitle (some y) false r)) =
        [(a1, scoreResult searchTitle (some y) false a1),
         (a2, scoreResult searchTitle (some y) false a2)] := by
      simp only [List.map, List.insertionSort, List.orderedInsert]
      rw [if_neg hord]
    simp only [findBestMatch, hsort2, if_neg hnotlt]

/-- C2 witness: the Fargo scenario — searching "Fargo" with year 1996
against the 1996 film and the 2014 series, in both provider orders,
selects the 1996 candidate. -/
theorem c2_witness :
    findBestMatch [fargo1996, fargo2014] "Fargo" (some 1996) false = some fargo1996 ∧
    findBestMatch [fargo2014, fargo1996] "Fargo" (some 1996) false = some fargo1996 :=
  ⟨c2_theorem fargo1996 fargo2014 "Fargo" 1996 2014 (by decide) (by decide) (by decide)
      (by decide) (by decide) (by decide) (by norm_num [fargo1996]) (by norm_num [fargo1996])
      _ (Or.inl rfl),
    c2_theorem fargo1996 fargo2014 "Fargo" 1996 2014 (by decide) (by decide) (by decide)
      (by decide) (by decide) (by decide) (by norm_num [fargo1996]) (by norm_num [fargo1996])
      _ (Or.inr rfl)⟩

/-- C3 counterexample: with a target year supplied and a single returned
candidate whose combined score (−80) is far below the year-supplied
threshold (80), `findBestMatch` still returns that candidate rather
than `null` — the claim fails as stated because a singleton response
bypasses scoring entirely. -/
theorem c3_counterexample :
    scoreResult "abc" (some 2000) false lowCandidate < minScore (some 2000) ∧
    findBestMatch [lowCandidate] "abc" (some 2000) false = some lowCandidate := by
  constructor
  · have hsc : scoreResult "abc" (some 2000) false lowCandidate = -80 := by
      simp only [scoreResult, lowCandidate, Bool.false_eq_true, if_false]
      rw [if_pos (by norm_num), if_pos (by norm_num),
        if_neg (by norm_num), if_neg (by norm_num), if_neg (by norm_num)]
      rw [if_neg (by decide), if_neg (by decide), if_neg (by decide)]
      norm_num
    have h80 : minScore (some 2000) = 80 := by simp [minScore, yearTruthy]
    rw [hsc, h80]
    norm_num
  · rfl

/-- C3 (amended): the acceptance threshold is strictly higher when a
target year is supplied (80) than when it is not (30), and whenever at
least two candidates were returned and the combined score of every
candidate — in particular of the best one — falls below the year-supplied
threshold, the match is rejected and `null` is returned rather than
the low-confidence candidate.  (A single returned candidate bypasses
scoring and is returned unconditionally.) -/
theorem c3_amended (results : List TMDBResult) (searchTitle : String) (y : Int) (isTV : Bool)
    (h2 : 2 ≤ results.length) (hy : y ≠ 0)
    (hlow : ∀ r ∈ results, scoreResult searchTitle (some y) isTV r < minScore (some y)) :
    minScore none < minScore (some y) ∧ minScore (some y) = 80 ∧ minScore none = 30 ∧
    findBestMatch results searchTitle (some y) isTV = none := by
  have h80 : minScore (some y) = 80 := by simp [minScore, yearTruthy, hy]
  have h30 : minScore none = 30 := by simp [minScore, yearTruthy]
  refine ⟨by rw [h80, h30]; norm_num, h80, h30, ?_⟩
  match results, h2, hlow with
  | a :: b :: rest, _, hlow =>
    simp only [findBestMatch]
    cases hsort : List.insertionSort scoreGE
        ((a :: b :: rest).map fun r => (r, scoreResult searchTitle (some y) isTV r)) with
    | nil =>
      exfalso
      have hlen := (List.perm_insertionSort scoreGE
        ((a :: b :: rest).map fun r => (r, scoreResult searchTitle (some y) isTV r))).length_eq
      rw [hsort] at hlen
      simp at hlen
    | cons best tail =>
      have hbm : best ∈ (a :: b :: rest).map
          (fun r => (r, scoreResult searchTitle (some y) isTV r)) :=
        head_insertionSort_mem hsort
      obtain ⟨r0, hr0, hbeq⟩ := List.mem_map.mp hbm
      have hblt : best.2 < minScore (some y) := by
        rw [← hbeq]
        exact hlow r0 hr0
      simp only [if_pos hblt]

/-- C3 witness: two candidates that share no text with the query "abc"
and miss the target year 2000 by a century both score −80 < 80; the
match is rejected and `null` is returned. -/
theorem c3_witness :
    2 ≤ ([badA, badB] : List TMDBResult).length ∧
    (minScore none < minScore (some 2000) ∧ minScore (some 2000) = 80 ∧ minScore none = 30 ∧
      findBestMatch [badA, badB] "abc" (some 2000) false = none) :=
  ⟨by norm_num,
    c3_amended [badA, badB] "abc" 2000 false (by norm_num) (by norm_num) (by
      intro r hr
      have h80 : minScore (some (2000 : Int)) = 80 := by simp [minScore, yearTruthy]
      rcases List.mem_cons.mp hr with rfl | hr
      · have hsc : scoreResult "abc" (some 2000) false badA = -80 := by
          simp only [scoreResult, badA, Bool.false_eq_true, if_false]
          rw [if_pos (by norm_num), if_pos (by norm_num),
            if_neg (by norm_num), if_neg (by norm_num), if_neg (by norm_num)]
          rw [if_neg (by decide), if_neg (by decide), if_neg (by decide)]
          norm_num
        rw [hsc, h80]
        norm_num
      · rcases List.mem_cons.mp hr with rfl | hr
        · have hsc : scoreResult "abc" (some 2000) false badB = -80 := by
            simp only [scoreResult, badB, Bool.false_eq_true, if_false]
            rw [if_pos (by norm_num), if_pos (by norm_num),
              if_neg (by norm_num), if_neg (by norm_num), if_neg (by norm_num)]
            rw [if_neg (by decide), if_neg (by decide), if_neg (by decide)]
            norm_num
          rw [hsc, h80]
          norm_num
        · exact absurd hr (List.not_mem_nil r))⟩

/-- C6: a batch of 7 items with distinct ids under the concurrency
limit of 3 is issued as sequential groups of sizes 3, 3 and 1, with the
fixed 200 ms delay only between groups (none after the last); a match
function throwing on exactly one item of the second group — and
returning a non-null result for every other item — is caught and
recorded as `null`, still yielding a complete 7-entry result map keyed
by item id with exactly one `null`. -/
theorem c6_theorem {ε β : Type} (b0 b1 b2 b3 b4 b5 b6 : BookItem)
    (f : BookItem → Except ε (Option β))
    (hids : ([b0.id, b1.id, b2.id, b3.id, b4.id, b5.id, b6.id] : List String).Nodup)
    (h0 : ∃ v, f b0 = Except.ok (some v)) (h1 : ∃ v, f b1 = Except.ok (some v))
    (h2 : ∃ v, f b2 = Except.ok (some v)) (h6 : ∃ v, f b6 = Except.ok (some v))
    (hg2 :
      ((∃ e, f b3 = Except.error e) ∧ (∃ v, f b4 = Except.ok (some v)) ∧
        (∃ v, f b5 = Except.ok (some v))) ∨
      ((∃ v, f b3 = Except.ok (some v)) ∧ (∃ e, f b4 = Except.error e) ∧
        (∃ v, f b5 = Except.ok (some v))) ∨
      ((∃ v, f b3 = Except.ok (some v)) ∧ (∃ v, f b4 = Except.ok (some v)) ∧
        (∃ e, f b5 = Except.error e))) :
    (batchSearchBooks f [b0, b1, b2, b3, b4, b5, b6]).2 =
      [BatchEvent.group [b0.id, b1.id, b2.id], BatchEvent.delay 200,
       BatchEvent.group [b3.id, b4.id, b5.id], BatchEvent.delay 200,
       BatchEvent.group [b6.id]] ∧
    (batchSearchBooks f [b0, b1, b2, b3, b4, b5, b6]).1.map Prod.fst =
      [b0.id, b1.id, b2.id, b3.id, b4.id, b5.id, b6.id] ∧
    ((batchSearchBooks f [b0, b1, b2, b3, b4, b5, b6]).1.filter
      (fun p => p.2.isNone)).length = 1 := by
  obtain ⟨v0, hv0⟩ := h0
  obtain ⟨v1, hv1⟩ := h1
  obtain ⟨v2, hv2⟩ := h2
  obtain ⟨v6, hv6⟩ := h6
  simp only [List.nodup_cons, List.mem_cons, List.not_mem_nil, or_false, not_or,
    List.nodup_nil, and_true] at hids
  obtain ⟨⟨n01, n02, n03, n04, n05, n06⟩, ⟨n12, n13, n14, n15, n16⟩,
    ⟨n23, n24, n25, n26⟩, ⟨n34, n35, n36⟩, ⟨n45, n46⟩, n56⟩ := hids
  have e01 : (b0.id == b1.id) = false := beq_eq_false_iff_ne.mpr n01
  have e02 : (b0.id == b2.id) = false := beq_eq_false_iff_ne.mpr n02
  have e03 : (b0.id == b3.id) = false := beq_eq_false_iff_ne.mpr n03
  have e04 : (b0.id == b4.id) = false := beq_eq_false_iff_ne.mpr n04
  have e05 : (b0.id == b5.id) = false := beq_eq_false_iff_ne.mpr n05
  have e06 : (b0.id == b6.id) = false := beq_eq_false_iff_ne.mpr n06
  have e12 : (b1.id == b2.id) = false := beq_eq_false_iff_ne.mpr n12
  have e13 : (b1.id == b3.id) = false := beq_eq_false_iff_ne.mpr n13
  have e14 : (b1.id == b4.id) = false := beq_eq_false_iff_ne.mpr n14
  have e15 : (b1.id == b5.id) = false := beq_eq_false_iff_ne.mpr n15
  have e16 : (b1.id == b6.id) = false := beq_eq_false_iff_ne.mpr n16
  have e23 : (b2.id == b3.id) = false := beq_eq_false_iff_ne.mpr n23
  have e24 : (b2.id == b4.id) = false := beq_eq_false_iff_ne.mpr n24
  have e25 : (b2.id == b5.id) = false := beq_eq_false_iff_ne.mpr n25
  have e26 : (b2.id == b6.id) = false := beq_eq_false_iff_ne.mpr n26
  have e34 : (b3.id == b4.id) = false := beq_eq_false_iff_ne.mpr n34
  have e35 : (b3.id == b5.id) = false := beq_eq_false_iff_ne.mpr n35
  have e36 : (b3.id == b6.id) = false := beq_eq_false_iff_ne.mpr n36
  have e45 : (b4.id == b5.id) = false := beq_eq_false_iff_ne.mpr n45
  have e46 : (b4.id == b6.id) = false := beq_eq_false_iff_ne.mpr n46
  have e56 : (b5.id == b6.id) = false := beq_eq_false_iff_ne.mpr n56.1
  rcases hg2 with ⟨⟨e3, he3⟩, ⟨v4, hv4⟩, ⟨v5, hv5⟩⟩ | ⟨⟨v3, hv3⟩, ⟨e4, he4⟩, ⟨v5, hv5⟩⟩ |
    ⟨⟨v3, hv3⟩, ⟨v4, hv4⟩, ⟨e5, he5⟩⟩
  · have hout : batchSearchBooks f [b0, b1, b2, b3, b4, b5, b6] =
        ([(b0.id, some v0), (b1.id, some v1), (b2.id, some v2), (b3.id, none),
          (b4.id, some v4), (b5.id, some v5), (b6.id, some v6)],
         [BatchEvent.group [b0.id, b1.id, b2.id], BatchEvent.delay 200,
          BatchEvent.group [b3.id, b4.id, b5.id], BatchEvent.delay 200,
          BatchEvent.group [b6.id]]) := by
      simp only [batchSearchBooks, chunkList, chunkAux, BATCH_SIZE, List.take, List.drop,
        List.length_cons, List.length_nil, runBatches, processBatch, List.foldl_cons,
        List.foldl_nil, hv0, hv1, hv2, he3, hv4, hv5, hv6, mapSet, List.any_cons,
        List.any_nil, e01, e02, e03, e04, e05, e06, e12, e13, e14, e15, e16, e23, e24,
        e25, e26, e34, e35, e36, e45, e46, e56, Bool.or_false, Bool.false_eq_true,
        if_false, List.cons_append, List.nil_append, List.map_cons, List.map_nil]
    rw [hout]
    refine ⟨rfl, by simp, by simp [List.filter]⟩
  · have hout : batchSearchBooks f [b0, b1, b2, b3, b4, b5, b6] =
        ([(b0.id, some v0), (b1.id, some v1), (b2.id, some v2), (b3.id, some v3),
          (b4.id, none), (b5.id, some v5), (b6.id, some v6)],
         [BatchEvent.group [b0.id, b1.id, b2.id], BatchEvent.delay 200,
          BatchEvent.group [b3.id, b4.id, b5.id], BatchEvent.delay 200,
          BatchEvent.group [b6.id]]) := by
      simp only [batchSearchBooks, chunkList, chunkAux, BATCH_SIZE, List.take, List.drop,
        List.length_cons, List.length_nil, runBatches, processBatch, List.foldl_cons,
        List.foldl_nil, hv0, hv1, hv2, hv3, he4, hv5, hv6, mapSet, List.any_cons,
        List.any_nil, e01, e02, e03, e04, e05, e06, e12, e13, e14, e15, e16, e23, e24,
        e25, e26, e34, e35, e36, e45, e46, e56, Bool.or_false, Bool.false_eq_true,
        if_false, List.cons_append, List.nil_append, List.map_cons, List.map_nil]
    rw [hout]
    refine ⟨rfl, by simp, by simp [List.filter]⟩
  · have hout : batchSearchBooks f [b0, b1, b2, b3, b4, b5, b6] =
        ([(b0.id, some v0), (b1.id, some v1), (b2.id, some v2), (b3.id, some v3),
          (b4.id, some v4), (b5.id, none), (b6.id, some v6)],
         [BatchEvent.group [b0.id, b1.id, b2.id], BatchEvent.delay 200,
          BatchEvent.group [b3.id, b4.id, b5.id], BatchEvent.delay 200,
          BatchEvent.group [b6.id]]) := by
      simp only [batchSearchBooks, chunkList, chunkAux, BATCH_SIZE, List.take, List.drop,
        List.length_cons, List.length_nil, runBatches, processBatch, List.foldl_cons,
        List.foldl_nil, hv0, hv1, hv2, hv3, hv4, he5, hv6, mapSet, List.any_cons,
        List.any_nil, e01, e02, e03, e04, e05, e06, e12, e13, e14, e15, e16, e23, e24,
        e25, e26, e34, e35, e36, e45, e46, e56, Bool.or_false, Bool.false_eq_true,
        if_false, List.cons_append, List.nil_append, List.map_cons, List.map_nil]
    rw [hout]
    refine ⟨rfl, by simp, by simp [List.filter]⟩

/-- C6 witness: seven concrete items `b1`…`b7`; the matcher throws on
item "b5" (second group) and returns a result for the others, giving
groups {3, 3, 1}, delays only between groups, all seven ids in the
result map and exactly one `null`. -/
theorem c6_witness :
    (batchSearchBooks witnessSearch witnessBooks).2 =
      [BatchEvent.group ["b1", "b2", "b3"], BatchEvent.delay 200,
       BatchEvent.group ["b4", "b5", "b6"], BatchEvent.delay 200,
       BatchEvent.group ["b7"]] ∧
    (batchSearchBooks witnessSearch witnessBooks).1.map Prod.fst =
      ["b1", "b2", "b3", "b4", "b5", "b6", "b7"] ∧
    ((batchSearchBooks witnessSearch witnessBooks).1.filter
      (fun p => p.2.isNone)).length = 1 :=
  c6_theorem { id := "b1" } { id := "b2" } { id := "b3" } { id := "b4" } { id := "b5" }
    { id := "b6" } { id := "b7" } witnessSearch (by decide)
    ⟨0, rfl⟩ ⟨0, rfl⟩ ⟨0, rfl⟩ ⟨0, rfl⟩
    (Or.inr (Or.inl ⟨⟨0, rfl⟩, ⟨(), rfl⟩, ⟨0, rfl⟩⟩))

theorem bigCache5_blob_length :
    (stringifyBlob jsonString CACHE_VERSION ((0 : Int) + CACHE_EXPIRY_MS) bigCache5).length
      = 5500082 := by
  simp only [stringifyBlob, bigCache5, bigCache4, List.cons_append, List.nil_append,
    joinPairs, entryStr, jsonString, jsonValue, strLengthAppend, bigVal_length]
  decide

/-- Loading a blob freshly written at `now` (version current, expiry 30
days ahead) populates the empty in-memory cache with exactly the stored
entries. -/
theorem loadCache_of_fresh_save {α : Type} (d : CacheMap α) (now : Int)
    (hnd : (d.map Prod.fst).Nodup) :
    (loadCacheFromStorage (some ⟨CACHE_VERSION, now + CACHE_EXPIRY_MS, d⟩) now
      ([] : CacheMap α)).1 = d := by
  simp only [loadCacheFromStorage]
  rw [if_neg (by simp)]
  rw [if_neg (by
    intro hcon
    have hlt := hcon.2
    have hms : CACHE_EXPIRY_MS = 2592000000 := by norm_num [CACHE_EXPIRY_MS]
    omega)]
  rw [load_foldl d [] (fun kv _ => rfl) hnd]
  simp

/-- C1 (code bug): with five entries of 1.1 MB each — inserted in the
order k1, k2, k3, k4, k5 — the serialized blob (5,500,082 characters)
exceeds the 4 MB threshold, and `saveCacheToStorage` writes
`entries.slice(0, Math.floor(5 * 0.8)) = [k1, k2, k3, k4]`: the FIRST
(oldest-inserted) 80% of the entries.  It therefore evicts the newest
20% (k5), while both the claim and the comments in the code ("clearing
oldest entries", "Remove oldest 20% of entries") call for keeping the
most recently inserted 80%. -/
theorem c1_theorem :
    (saveCacheToStorage jsonString bigCache5 0).data.map Prod.fst = ["k1", "k2", "k3", "k4"] ∧
    bigCache5.map Prod.fst = ["k1", "k2", "k3", "k4", "k5"] := by
  constructor
  · have hcond : (stringifyBlob jsonString CACHE_VERSION ((0 : Int) + CACHE_EXPIRY_MS)
        bigCache5).length > 4 * 1024 * 1024 := by
      rw [bigCache5_blob_length]
      norm_num
    simp only [saveCacheToStorage, if_pos hcond]
    rfl
  · rfl

/-- C9 counterexample: starting from four 1.1 MB entries k1…k4, setting
the fresh key "k5" (to the small value "x"), flushing synchronously and
reloading loses the k5 entry entirely: the serialized blob exceeds 4 MB,
so the save keeps only the first 80% of the entries — which excludes
the just-appended k5 — and the reloaded `get("k5")` is a miss instead
of the stored value. -/
theorem c9_counterexample :
    mapGet (loadCacheFromStorage
      (some (saveCacheToStorage jsonString (mapSet bigCache4 "k5" (some "x")) 0)) 0
      ([] : CacheMap String)).1 "k5" = none := by
  have hmset : mapSet bigCache4 "k5" (some "x") = bigCache4 ++ [("k5", some "x")] :=
    mapSet_append_of_not_has bigCache4 "k5" (some "x") (by decide)
  have hlen : (stringifyBlob jsonString CACHE_VERSION ((0 : Int) + CACHE_EXPIRY_MS)
      (mapSet bigCache4 "k5" (some "x"))).length = 4400083 := by
    rw [hmset]
    simp only [stringifyBlob, bigCache4, List.cons_append, List.nil_append, joinPairs,
      entryStr, jsonString, jsonValue, strLengthAppend, bigVal_length]
    decide
  have hsave : saveCacheToStorage jsonString (mapSet bigCache4 "k5" (some "x")) 0 =
      { version := CACHE_VERSION, expiry := (0 : Int) + CACHE_EXPIRY_MS,
        data := (mapSet bigCache4 "k5" (some "x")).take
          (4 * (mapSet bigCache4 "k5" (some "x")).length / 5) } := by
    simp only [saveCacheToStorage]
    rw [if_pos (by rw [hlen]; norm_num)]
  rw [hsave, hmset]
  have hdata : (bigCache4 ++ [("k5", some "x")]).take
      (4 * (bigCache4 ++ [("k5", some "x")]).length / 5) = bigCache4 := rfl
  rw [hdata]
  rw [loadCache_of_fresh_save bigCache4 0 (by decide)]
  decide

/-- C9 (amended): for every key k and cached value v (including
v = null), setting k to v, forcing a synchronous save and reloading the
cache from storage yields get(k) structurally equal to v — provided the
serialized cache stays within the 4 MB threshold, so that the save
performs no eviction (an oversized cache may evict the just-set entry;
see the counterexample). -/
theorem c9_amended {α : Type} (ser : α → String) (m : CacheMap α) (k : String)
    (v : Option α) (now : Int)
    (hnd : (m.map Prod.fst).Nodup)
    (hsize : (stringifyBlob ser CACHE_VERSION (now + CACHE_EXPIRY_MS) (mapSet m k v)).length ≤
      4 * 1024 * 1024) :
    mapGet (loadCacheFromStorage (some (saveCacheToStorage ser (mapSet m k v) now)) now
      ([] : CacheMap α)).1 k = some v := by
  have hsave : saveCacheToStorage ser (mapSet m k v) now =
      { version := CACHE_VERSION, expiry := now + CACHE_EXPIRY_MS, data := mapSet m k v } := by
    simp only [saveCacheToStorage]
    rw [if_neg (by omega)]
  rw [hsave]
  rw [loadCache_of_fresh_save (mapSet m k v) now (nodup_keys_mapSet m k v hnd)]
  exact mapGet_mapSet_self m k v

/-- C9 witness: with an empty cache, setting the key "k" to the cached
null (`none`), saving at time 0 and reloading yields `get("k") = some
none` — the cached null survives the round trip; the one-entry blob is
53 characters, far under the threshold. -/
theorem c9_witness :
    (([] : CacheMap Nat).map Prod.fst).Nodup ∧
    (stringifyBlob (fun n : Nat => toString n) CACHE_VERSION ((0 : Int) + CACHE_EXPIRY_MS)
      (mapSet ([] : CacheMap Nat) "k" none)).length ≤ 4 * 1024 * 1024 ∧
    mapGet (loadCacheFromStorage
      (some (saveCacheToStorage (fun n : Nat => toString n)
        (mapSet ([] : CacheMap Nat) "k" none) 0)) 0 ([] : CacheMap Nat)).1 "k" = some none :=
  ⟨by decide, by decide,
    c9_amended (fun n : Nat => toString n) [] "k" none 0 (by decide) (by decide)⟩

end MoviePortal
